import Mathlib

/-!
Verification development for the `kwrepr` utility: a keyword-style
`__repr__` generator attached dynamically to classes.  The Python source
(`kwrepr/kwrepr.py`, `kwrepr/decorator.py`, `kwrepr/field_extractors/*`)
is shallowly embedded below: attribute storage becomes an association
list, fallible paths return `Except`, and the bounded `reprlib.Repr`
renderer is modelled on a small universe of Python values (integers,
plain strings, lists).
-/

/-- A small universe of Python values, enough to exercise the rendering,
computing and formatting paths of the field extractors. -/
inductive Value where
  | int : Int → Value
  | str : String → Value
  | list : List Value → Value

/-- `dict.get` / association-list lookup: first binding for the key wins
(Python dicts have unique keys, so the first binding is the only one). -/
def pyGet {α : Type} : List (String × α) → String → Option α
  | [], _ => none
  | p :: rest, k => if p.1 = k then some p.2 else pyGet rest k

/-- Python `str.startswith`, on the character sequence of the string. -/
def strStartsWith (s pre : String) : Bool := pre.data.isPrefixOf s.data

/-- Python `str.endswith`, on the character sequence of the string. -/
def strEndsWith (s suf : String) : Bool := suf.data.isSuffixOf s.data

/-- The single-quote character, used by Python `repr` of strings. -/
def squote : String := String.singleton (Char.ofNat 39)

/-- Python `repr` of a plain string (one containing no quote or escape
characters): the text wrapped in single quotes. -/
def pyReprStrLit (s : String) : String := squote ++ s ++ squote

mutual

/-- Python builtin `repr` on the embedded value universe (unbounded). -/
def pyRepr : Value → String
  | .int n => toString n
  | .str s => pyReprStrLit s
  | .list l => "[" ++ String.intercalate ", " (pyReprValues l) ++ "]"

/-- `repr` of each element of a list of values. -/
def pyReprValues : List Value → List String
  | [] => []
  | v :: vs => pyRepr v :: pyReprValues vs

end

/-- Python builtin `str` on the embedded value universe. -/
def pyStr : Value → String
  | .str s => s
  | v => pyRepr v

/-- Configuration of `reprlib.Repr` (the fields this development uses;
defaults are those of `reprlib.Repr()`). -/
structure ReprConfig where
  maxlevel : Nat
  maxlist : Nat
  maxstring : Nat
  maxother : Nat

/-- `reprlib.Repr()` defaults: maxlevel 6, maxlist 6, maxstring 30,
maxother 30. -/
def defaultReprConfig : ReprConfig :=
  { maxlevel := 6, maxlist := 6, maxstring := 30, maxother := 30 }

/-- The middle-ellipsis truncation of `reprlib.Repr.repr_instance`:
`s[:i] + "..." + s[len(s)-j:]` once the text exceeds the limit.  Natural
subtraction plays the role of the `max(0, ...)` clamps of Python. -/
def truncMiddle (limit : Nat) (s : String) : String :=
  if s.length > limit then
    let i := (limit - 3) / 2
    let j := limit - 3 - i
    s.take i ++ "..." ++ s.drop (s.length - j)
  else s

/-- `reprlib.Repr.repr_str`: quote a prefix of the string, and if the
result exceeds `maxstring`, rebuild it from the two ends with an
ellipsis in the middle. -/
def reprStrVal (cfg : ReprConfig) (x : String) : String :=
  let s := pyReprStrLit (x.take cfg.maxstring)
  if s.length > cfg.maxstring then
    let i := (cfg.maxstring - 3) / 2
    let j := cfg.maxstring - 3 - i
    let s2 := pyReprStrLit (x.take i ++ x.drop (x.length - j))
    s2.take i ++ "..." ++ s2.drop (s2.length - j)
  else s

mutual

/-- `reprlib.Repr.repr1`: dispatch on the value kind, with a recursion
level.  Lists go through `_repr_iterable` with `maxlist`: at level 0 a
nonempty list renders as `[...]`, otherwise the first `maxlist` elements
are rendered one level lower and an ellipsis is appended when elements
were dropped. -/
def repr1 (cfg : ReprConfig) : Value → Nat → String
  | .int n, _ => truncMiddle cfg.maxother (toString n)
  | .str s, _ => reprStrVal cfg s
  | .list l, level =>
    if level = 0 && !l.isEmpty then "[...]"
    else
      let pieces := repr1Values cfg l (level - 1) cfg.maxlist
      let pieces := if decide (l.length > cfg.maxlist) then pieces ++ ["..."] else pieces
      "[" ++ String.intercalate ", " pieces ++ "]"

/-- Renderings of the first `k` elements of a value list at the given
level (the `islice(x, maxiter)` of `reprlib._repr_iterable`). -/
def repr1Values (cfg : ReprConfig) : List Value → Nat → Nat → List String
  | [], _, _ => []
  | _ :: _, _, 0 => []
  | v :: vs, level, Nat.succ k => repr1 cfg v level :: repr1Values cfg vs level k

end

/-- `reprlib.Repr.repr`: render at the configured `maxlevel`. -/
def reprlibRepr (cfg : ReprConfig) (v : Value) : String :=
  repr1 cfg v cfg.maxlevel

/-- A Python class, seen through what the embedding needs: `__name__`,
`__qualname__`, the outcomes of `hasattr(class_, "__dict__")` and
`hasattr(class_, "__slots__")`, and the `__slots__` name list. -/
structure PyClass where
  name : String
  qualname : String
  hasDict : Bool
  hasSlots : Bool
  slots : List String

/-- An instance: its class and its readable attributes, as an
insertion-ordered association list (for dict-backed classes this is
`vars(inst)`; for slots-backed classes the keys are the storage names,
i.e. already mangled for private slots). -/
structure PyInstance where
  cls : PyClass
  attrs : List (String × Value)

/-- The error taxonomy the source raises (messages kept, quoting of
names in the ValueError / TypeError messages elided). -/
inductive KWError where
  | valueError : String → KWError
  | typeError : String → KWError
  | attributeError : String → KWError
deriving DecidableEq

/-- The state a `BaseFieldExtractor.__init__` stores: `include`,
`exclude`, `compute`, `format_spec`, the two policy flags and the
`reprlib.Repr` configuration (`None` arguments already replaced by the
empty containers, as `exclude or []` etc. do). -/
structure ExtractorConfig where
  incl : List String
  exclude : List String
  compute : List (String × (PyInstance → Value))
  format_spec : List (String × String)
  exclude_private : Bool
  skip_missing : Bool
  reprCfg : ReprConfig

/-- `BaseFieldExtractor.is_field_allowed`: reject names starting with an
underscore when `exclude_private` is set, and names in `exclude`. -/
def isFieldAllowed (cfg : ExtractorConfig) (fieldName : String) : Bool :=
  if strStartsWith fieldName "_" && cfg.exclude_private then false
  else if cfg.exclude.contains fieldName then false
  else true

/-- Python builtin `format(value, spec)` for the fragment of the format
mini-language this development exercises: the empty spec renders like
`str(value)`; `"d"` on an integer gives its decimal form.  Other specs
are outside the modelled fragment and fall back to `str(value)`; no
theorem below depends on that fallback. -/
def pyFormat (v : Value) (spec : String) : String :=
  if spec = "" then pyStr v
  else
    match v, spec with
    | .int n, "d" => toString n
    | _, _ => pyStr v

/-- `BaseFieldExtractor.process_field_value`: a registered computing
function replaces the stored value; then a registered *truthy* (i.e.
nonempty) format spec renders via `format`, anything else via the
bounded `reprlib` renderer.  The `if format_spec := ...get(name):` in
the source tests Python truthiness, so `some ""` takes the else
branch. -/
def processFieldValue (cfg : ExtractorConfig) (inst : PyInstance)
    (fieldName : String) (fieldValue : Value) : String :=
  let v := match pyGet cfg.compute fieldName with
    | some f => f inst
    | none => fieldValue
  match pyGet cfg.format_spec fieldName with
  | some spec => if spec = "" then reprlibRepr cfg.reprCfg v else pyFormat v spec
  | none => reprlibRepr cfg.reprCfg v

/-- `DictFieldExtractor.extract_fields`: walk `vars(inst)` in insertion
order, keep allowed names, render each kept value. -/
def dictExtractFields (cfg : ExtractorConfig) (inst : PyInstance) :
    List (String × String) :=
  inst.attrs.filterMap (fun p =>
    if isFieldAllowed cfg p.1 = true then some (p.1, processFieldValue cfg inst p.1 p.2)
    else none)

/-- The slot-name mangling in `SlotsFieldExtractor.extract_fields`: a
name starting with a double underscore and not ending with one becomes
`_<TypeName><name>`. -/
def mangleSlot (clsName fieldName : String) : String :=
  if strStartsWith fieldName "__" && !(strEndsWith fieldName "__") then
    "_" ++ clsName ++ fieldName
  else fieldName

/-- Body of `SlotsFieldExtractor.extract_fields` over a remaining slot
list: filter on the declared name, mangle, read the attribute (missing:
skip or raise per `skip_missing`), render. -/
def slotsExtractFieldsAux (cfg : ExtractorConfig) (inst : PyInstance) :
    List String → Except KWError (List (String × String))
  | [] => .ok []
  | n :: rest =>
    if isFieldAllowed cfg n then
      match pyGet inst.attrs (mangleSlot inst.cls.name n) with
      | some v =>
        match slotsExtractFieldsAux cfg inst rest with
        | .ok tail =>
          .ok ((mangleSlot inst.cls.name n,
            processFieldValue cfg inst (mangleSlot inst.cls.name n) v) :: tail)
        | .error e => .error e
      | none =>
        if cfg.skip_missing then slotsExtractFieldsAux cfg inst rest
        else .error (.attributeError
          ("Missing required attribute: " ++ mangleSlot inst.cls.name n))
    else slotsExtractFieldsAux cfg inst rest

/-- `SlotsFieldExtractor.extract_fields`, run over `type(inst).__slots__`
(the whole-call view of the generator: either every yielded field, or
the error raised at the first unreadable non-skipped slot). -/
def slotsExtractFields (cfg : ExtractorConfig) (inst : PyInstance) :
    Except KWError (List (String × String)) :=
  slotsExtractFieldsAux cfg inst inst.cls.slots

/-- Body of the explicit-include extractor over a remaining name list. -/
def includedExtractFieldsAux (cfg : ExtractorConfig) (inst : PyInstance) :
    List String → Except KWError (List (String × String))
  | [] => .ok []
  | n :: rest =>
    match pyGet inst.attrs n with
    | some v =>
      match includedExtractFieldsAux cfg inst rest with
      | .ok tail => .ok ((n, processFieldValue cfg inst n v) :: tail)
      | .error e => .error e
    | none =>
      if cfg.skip_missing then includedExtractFieldsAux cfg inst rest
      else .error (.attributeError ("Missing required attribute: " ++ n))

/-- Modelled from the spec: `IncludedFieldExtractor.extract_fields`
(its source file is not under src/).  The inclusion list is
authoritative and bypasses filtering; each listed name is read (missing
names skipped or raised per `skip_missing`) and processed.  Composite
entries and format specifiers embedded in the name are not modelled. -/
def includedExtractFields (cfg : ExtractorConfig) (inst : PyInstance) :
    Except KWError (List (String × String)) :=
  includedExtractFieldsAux cfg inst cfg.incl

/-- The three field-extractor variants `KWRepr.resolve_field_extractor`
chooses among. -/
inductive ExtractorKind where
  | dict : ExtractorKind
  | slots : ExtractorKind
  | included : ExtractorKind
deriving DecidableEq

/-- `KWRepr.resolve_field_extractor`: an inclusion list forces the
explicit-include variant; otherwise `hasattr(class_, "__dict__")`
selects the dict variant, then `hasattr(class_, "__slots__")` the slots
variant, and otherwise a TypeError is raised. -/
def resolveFieldExtractor (cls : PyClass) (includeArg : Option (List String)) :
    Except KWError ExtractorKind :=
  match includeArg with
  | some _ => .ok .included
  | none =>
    if cls.hasDict then .ok .dict
    else if cls.hasSlots then .ok .slots
    else .error (.typeError ("Type " ++ cls.name ++ " must define either __dict__ or __slots__"))

/-- `KWRepr.DELIMITERS`: the default wrapping delimiters. -/
def defaultDelimiters : String × String := ("(", ")")

/-- The state a successfully constructed `KWRepr` holds: the resolved
delimiters, the chosen extractor variant, and the extractor state. -/
structure KWReprState where
  delimiters : String × String
  extractor : ExtractorKind
  cfg : ExtractorConfig

/-- `KWRepr.__init__`: reject `include` and `exclude` together with a
ValueError, resolve the extractor variant, default the delimiters
(`delimiters or DELIMITERS`) and build the extractor state (`None`
container arguments become empty containers). -/
def kwreprInit (cls : PyClass)
    (includeArg excludeArg : Option (List String))
    (computeArg : Option (List (String × (PyInstance → Value))))
    (formatSpecArg : Option (List (String × String)))
    (excludePrivateArg skipMissingArg : Bool)
    (reprConfigArg : Option ReprConfig)
    (delimitersArg : Option (String × String)) : Except KWError KWReprState :=
  if includeArg.isSome && excludeArg.isSome then
    .error (.valueError "Cannot specify both include and exclude")
  else
    match resolveFieldExtractor cls includeArg with
    | .error e => .error e
    | .ok k =>
      .ok {
        delimiters := delimitersArg.getD defaultDelimiters
        extractor := k
        cfg := {
          incl := includeArg.getD []
          exclude := excludeArg.getD []
          compute := computeArg.getD []
          format_spec := formatSpecArg.getD []
          exclude_private := excludePrivateArg
          skip_missing := skipMissingArg
          reprCfg := reprConfigArg.getD defaultReprConfig } }

/-- `KWRepr.generate_body`: join the `name=value` renderings with a
comma and a space. -/
def generateBody (fields : List (String × String)) : String :=
  String.intercalate ", " (fields.map (fun p => p.1 ++ "=" ++ p.2))

/-- `KWRepr.generate_str`: qualified type name, opening delimiter, body,
closing delimiter. -/
def generateStr (st : KWReprState) (inst : PyInstance)
    (fields : List (String × String)) : String :=
  inst.cls.qualname ++ st.delimiters.1 ++ generateBody fields ++ st.delimiters.2

/-- `self.field_extractor.extract_fields(inst)`: dispatch to the variant
chosen at construction time. -/
def extractFieldsOf (st : KWReprState) (inst : PyInstance) :
    Except KWError (List (String × String)) :=
  match st.extractor with
  | .dict => .ok (dictExtractFields st.cfg inst)
  | .slots => slotsExtractFields st.cfg inst
  | .included => includedExtractFields st.cfg inst

/-- `KWRepr.generate`: extract the fields and assemble the final repr
string (an extraction error propagates to the caller). -/
def kwreprGenerate (st : KWReprState) (inst : PyInstance) : Except KWError String :=
  match extractFieldsOf st inst with
  | .ok fs => .ok (generateStr st inst fs)
  | .error e => .error e

/-- The keyword options of the two attachment entry points; `none`
means the caller did not supply the option, so the default of the
entry point itself applies. -/
structure KWOptions where
  incl : Option (List String)
  exclude : Option (List String)
  compute : Option (List (String × (PyInstance → Value)))
  format_spec : Option (List (String × String))
  exclude_private : Option Bool
  skip_missing : Option Bool
  repr_config : Option ReprConfig
  delimiters : Option (String × String)

/-- No option supplied at all. -/
def noOptions : KWOptions :=
  ⟨none, none, none, none, none, none, none, none⟩

/-- `KWRepr.inject_repr`: build the KWRepr (its own parameter defaults:
`exclude_private=False`, `skip_missing=False`) and install `__repr__`;
the result models the state captured by the installed method. -/
def injectRepr (opts : KWOptions) (cls : PyClass) : Except KWError KWReprState :=
  kwreprInit cls opts.incl opts.exclude opts.compute opts.format_spec
    (opts.exclude_private.getD false) (opts.skip_missing.getD false)
    opts.repr_config opts.delimiters

/-- `apply_kwrepr` (the decorator): its parameter defaults are
`exclude_private=True`, `skip_missing=False`; every option is passed on
to `KWRepr.inject_repr` explicitly, so the defaults of `inject_repr`
itself do not apply. -/
def applyKwrepr (opts : KWOptions) (cls : PyClass) : Except KWError KWReprState :=
  kwreprInit cls opts.incl opts.exclude opts.compute opts.format_spec
    (opts.exclude_private.getD true) (opts.skip_missing.getD false)
    opts.repr_config opts.delimiters

/-- Attach, then call the installed `__repr__` on an instance: an
attachment error propagates, otherwise the generated string is
returned. -/
def attachAndGenerate (r : Except KWError KWReprState) (inst : PyInstance) :
    Except KWError String :=
  match r with
  | .ok st => kwreprGenerate st inst
  | .error e => .error e

/-- Reference rendering of the spec wording for the skip-missing policy,
over a slot-name list: the storage names of the allowed slots that are
actually readable on the instance, in declaration order. -/
def readableAllowedSlotNamesAux (cfg : ExtractorConfig) (inst : PyInstance)
    (ns : List String) : List String :=
  ns.filterMap (fun n =>
    if isFieldAllowed cfg n then
      let m := mangleSlot inst.cls.name n
      if (pyGet inst.attrs m).isSome then some m else none
    else none)

/-- The slot-field names the spec expects the extractor to emit when
missing attributes are skipped. -/
def readableAllowedSlotNames (cfg : ExtractorConfig) (inst : PyInstance) :
    List String :=
  readableAllowedSlotNamesAux cfg inst inst.cls.slots

theorem pyGet_isSome_of_mem {α : Type} {l : List (String × α)} {k : String} {v : α}
    (h : (k, v) ∈ l) : (pyGet l k).isSome := by
  induction l with
  | nil => cases h
  | cons p rest ih =>
    rcases List.mem_cons.mp h with h1 | h1
    · subst h1; simp [pyGet]
    · by_cases hk : p.1 = k
      · simp [pyGet, hk]
      · simpa [pyGet, hk] using ih h1

theorem repr1Values_eq (cfg : ReprConfig) :
    ∀ (l : List Value) (level k : Nat),
      repr1Values cfg l level k = (l.take k).map (fun v => repr1 cfg v level) := by
  intro l
  induction l with
  | nil => intro level k; cases k <;> simp [repr1Values]
  | cons v vs ih =>
    intro level k
    cases k with
    | zero => simp [repr1Values]
    | succ k => simp [repr1Values, ih]

/-- C1: for every instance, the generated representation string is the
qualified name of the type, then the open delimiter, then the extracted
fields rendered as `name=value` joined by `", "` with no trailing
separator, then the close delimiter; the delimiters default to `"("`
and `")"` when none are configured; an empty field set renders as
`TypeName()`. -/
theorem c1_output_format :
    (∀ (st : KWReprState) (inst : PyInstance) (fs : List (String × String)),
      extractFieldsOf st inst = .ok fs →
      kwreprGenerate st inst =
        .ok (inst.cls.qualname ++ st.delimiters.1 ++
          String.intercalate ", " (fs.map (fun p => p.1 ++ "=" ++ p.2)) ++
          st.delimiters.2)) ∧
    (∀ (cls : PyClass) (includeArg excludeArg : Option (List String))
        (computeArg : Option (List (String × (PyInstance → Value))))
        (formatSpecArg : Option (List (String × String)))
        (ep sm : Bool) (rc : Option ReprConfig) (st : KWReprState),
      kwreprInit cls includeArg excludeArg computeArg formatSpecArg ep sm rc none = .ok st →
      st.delimiters = ("(", ")")) ∧
    (∀ (st : KWReprState) (inst : PyInstance),
      extractFieldsOf st inst = .ok [] → st.delimiters = ("(", ")") →
      kwreprGenerate st inst = .ok (inst.cls.qualname ++ "()")) := by
  refine ⟨?_, ?_, ?_⟩
  · intro st inst fs h
    unfold kwreprGenerate
    rw [h]
    rfl
  · intro cls includeArg excludeArg computeArg formatSpecArg ep sm rc st h
    unfold kwreprInit at h
    split at h
    · cases h
    · split at h
      · cases h
      · cases h
        rfl
  · intro st inst h hd
    unfold kwreprGenerate
    rw [h]
    unfold generateStr generateBody
    rw [hd]
    simp only [List.map_nil]
    rw [show String.intercalate ", " [] = "" from rfl, String.append_empty,
      String.append_assoc]
    rfl

/-- Dict-backed class `T` with default configuration, and some concrete
instances, used by the witnesses below. -/
def clsDictT : PyClass :=
  { name := "T", qualname := "T", hasDict := true, hasSlots := false, slots := [] }

def cfgDefault : ExtractorConfig :=
  { incl := [], exclude := [], compute := [], format_spec := [],
    exclude_private := true, skip_missing := false, reprCfg := defaultReprConfig }

def stT : KWReprState :=
  { delimiters := ("(", ")"), extractor := .dict, cfg := cfgDefault }

def instX1 : PyInstance := { cls := clsDictT, attrs := [("x", .int 1)] }

def instEmptyT : PyInstance := { cls := clsDictT, attrs := [] }

theorem c1_output_format_witness :
    (kwreprGenerate stT instX1 =
      .ok (instX1.cls.qualname ++ stT.delimiters.1 ++
        String.intercalate ", " ([("x", "1")].map (fun p => p.1 ++ "=" ++ p.2)) ++
        stT.delimiters.2)) ∧
    stT.delimiters = ("(", ")") ∧
    kwreprGenerate stT instEmptyT = .ok (instEmptyT.cls.qualname ++ "()") :=
  ⟨c1_output_format.1 stT instX1 [("x", "1")] (by rfl),
   c1_output_format.2.1 clsDictT none none none none true false none stT (by rfl),
   c1_output_format.2.2 stT instEmptyT (by rfl) rfl⟩

/-- C2: the extractor variant is resolved at attachment time: an
explicit inclusion list forces the explicit-include variant; otherwise
dynamic per-instance attribute storage selects the dict variant; then a
fixed slot list selects the slots variant; otherwise a TypeError. The
variant stored at attachment is the one this rule resolves. -/
theorem c2_extractor_resolution :
    ∀ cls : PyClass,
      (∀ names, resolveFieldExtractor cls (some names) = .ok .included) ∧
      (cls.hasDict = true → resolveFieldExtractor cls none = .ok .dict) ∧
      (cls.hasDict = false → cls.hasSlots = true →
        resolveFieldExtractor cls none = .ok .slots) ∧
      (cls.hasDict = false → cls.hasSlots = false →
        ∃ msg, resolveFieldExtractor cls none = .error (.typeError msg)) ∧
      (∀ (includeArg excludeArg : Option (List String)) computeArg formatSpecArg
          (ep sm : Bool) rc d (st : KWReprState),
        kwreprInit cls includeArg excludeArg computeArg formatSpecArg ep sm rc d = .ok st →
        resolveFieldExtractor cls includeArg = .ok st.extractor) := by
  intro cls
  refine ⟨fun names => rfl, ?_, ?_, ?_, ?_⟩
  · intro h; simp [resolveFieldExtractor, h]
  · intro h1 h2; simp [resolveFieldExtractor, h1, h2]
  · intro h1 h2
    exact ⟨"Type " ++ cls.name ++ " must define either __dict__ or __slots__",
      by simp [resolveFieldExtractor, h1, h2]⟩
  · intro includeArg excludeArg computeArg formatSpecArg ep sm rc d st h
    unfold kwreprInit at h
    split at h
    · cases h
    · split at h
      · cases h
      · cases h
        assumption

/-- Slots-backed class `S`. -/
def clsSlotsS : PyClass :=
  { name := "S", qualname := "S", hasDict := false, hasSlots := true,
    slots := ["x", "__y"] }

/-- A class with neither storage strategy. -/
def clsBare : PyClass :=
  { name := "B", qualname := "B", hasDict := false, hasSlots := false, slots := [] }

theorem c2_extractor_resolution_witness :
    resolveFieldExtractor clsDictT (some ["x"]) = .ok .included ∧
    resolveFieldExtractor clsDictT none = .ok .dict ∧
    resolveFieldExtractor clsSlotsS none = .ok .slots ∧
    (∃ msg, resolveFieldExtractor clsBare none = .error (.typeError msg)) ∧
    resolveFieldExtractor clsDictT none = .ok stT.extractor :=
  ⟨(c2_extractor_resolution clsDictT).1 ["x"],
   (c2_extractor_resolution clsDictT).2.1 rfl,
   (c2_extractor_resolution clsSlotsS).2.2.1 rfl rfl,
   (c2_extractor_resolution clsBare).2.2.2.1 rfl rfl,
   (c2_extractor_resolution clsDictT).2.2.2.2 none none none none true false none none stT rfl⟩

/-- C3: supplying both an inclusion and an exclusion list raises a
ValueError at attachment time, whatever the other options are, at each
attachment entry point (`apply_kwrepr`, `KWRepr.inject_repr`, and the
`KWRepr` constructor itself). -/
theorem c3_include_exclude_conflict :
    ∀ (cls : PyClass) (opts : KWOptions) (inc exc : List String),
      applyKwrepr { opts with incl := some inc, exclude := some exc } cls =
        .error (.valueError "Cannot specify both include and exclude") ∧
      injectRepr { opts with incl := some inc, exclude := some exc } cls =
        .error (.valueError "Cannot specify both include and exclude") ∧
      (∀ computeArg formatSpecArg (ep sm : Bool) rc d,
        kwreprInit cls (some inc) (some exc) computeArg formatSpecArg ep sm rc d =
          .error (.valueError "Cannot specify both include and exclude")) := by
  intro cls opts inc exc
  refine ⟨?_, ?_, ?_⟩ <;>
    simp [applyKwrepr, injectRepr, kwreprInit]

theorem slotsAux_names (cfg : ExtractorConfig) (inst : PyInstance) :
    ∀ (ns : List String) (out : List (String × String)),
      slotsExtractFieldsAux cfg inst ns = .ok out →
      ∀ p ∈ out, ∃ n, n ∈ ns ∧ isFieldAllowed cfg n = true ∧
        p.1 = mangleSlot inst.cls.name n ∧
        ∃ v, pyGet inst.attrs p.1 = some v ∧
          p.2 = processFieldValue cfg inst p.1 v := by
  intro ns
  induction ns with
  | nil =>
    intro out h p hp
    unfold slotsExtractFieldsAux at h
    cases h
    cases hp
  | cons n rest ih =>
    intro out h p hp
    unfold slotsExtractFieldsAux at h
    by_cases ha : isFieldAllowed cfg n = true
    · rw [if_pos ha] at h
      cases hv : pyGet inst.attrs (mangleSlot inst.cls.name n) with
      | some v =>
        rw [hv] at h
        cases ht : slotsExtractFieldsAux cfg inst rest with
        | ok tail =>
          rw [ht] at h
          cases h
          rcases List.mem_cons.mp hp with hp1 | hp1
          · subst hp1
            exact ⟨n, List.mem_cons_self n rest, ha, rfl, v, hv, rfl⟩
          · rcases ih tail ht p hp1 with ⟨m, hm, hall, hname, w, hw, hval⟩
            exact ⟨m, List.mem_cons_of_mem n hm, hall, hname, w, hw, hval⟩
        | error e =>
          rw [ht] at h
          cases h
      | none =>
        rw [hv] at h
        by_cases hs : cfg.skip_missing = true
        · rw [if_pos hs] at h
          rcases ih out h p hp with ⟨m, hm, hall, hname, w, hw, hval⟩
          exact ⟨m, List.mem_cons_of_mem n hm, hall, hname, w, hw, hval⟩
        · rw [if_neg hs] at h
          cases h
    · rw [if_neg ha] at h
      rcases ih out h p hp with ⟨m, hm, hall, hname, w, hw, hval⟩
      exact ⟨m, List.mem_cons_of_mem n hm, hall, hname, w, hw, hval⟩

theorem slotsAux_mem_of_present (cfg : ExtractorConfig) (inst : PyInstance) :
    ∀ (ns : List String) (out : List (String × String)) (n : String) (v : Value),
      slotsExtractFieldsAux cfg inst ns = .ok out →
      n ∈ ns → isFieldAllowed cfg n = true →
      pyGet inst.attrs (mangleSlot inst.cls.name n) = some v →
      (mangleSlot inst.cls.name n,
        processFieldValue cfg inst (mangleSlot inst.cls.name n) v) ∈ out := by
  intro ns
  induction ns with
  | nil =>
    intro out n v _ hn
    cases hn
  | cons m rest ih =>
    intro out n v h hn ha hv
    unfold slotsExtractFieldsAux at h
    rcases List.mem_cons.mp hn with rfl | hn'
    · rw [if_pos ha, hv] at h
      cases ht : slotsExtractFieldsAux cfg inst rest with
      | ok tail =>
        rw [ht] at h
        cases h
        exact List.mem_cons_self _ _
      | error e =>
        rw [ht] at h
        cases h
    · by_cases hm : isFieldAllowed cfg m = true
      · rw [if_pos hm] at h
        cases hw : pyGet inst.attrs (mangleSlot inst.cls.name m) with
        | some w =>
          rw [hw] at h
          cases ht : slotsExtractFieldsAux cfg inst rest with
          | ok tail =>
            rw [ht] at h
            cases h
            exact List.mem_cons_of_mem _ (ih tail n v ht hn' ha hv)
          | error e =>
            rw [ht] at h
            cases h
        | none =>
          rw [hw] at h
          by_cases hs : cfg.skip_missing = true
          · rw [if_pos hs] at h
            exact ih out n v h hn' ha hv
          · rw [if_neg hs] at h
            cases h
      · rw [if_neg hm] at h
        exact ih out n v h hn' ha hv

theorem slotsAux_ok_present (cfg : ExtractorConfig) (inst : PyInstance)
    (hskip : cfg.skip_missing = false) :
    ∀ (ns : List String) (out : List (String × String)),
      slotsExtractFieldsAux cfg inst ns = .ok out →
      ∀ n ∈ ns, isFieldAllowed cfg n = true →
        (pyGet inst.attrs (mangleSlot inst.cls.name n)).isSome := by
  intro ns
  induction ns with
  | nil =>
    intro out _ n hn
    cases hn
  | cons m rest ih =>
    intro out h n hn ha
    unfold slotsExtractFieldsAux at h
    rcases List.mem_cons.mp hn with rfl | hn'
    · rw [if_pos ha] at h
      cases hv : pyGet inst.attrs (mangleSlot inst.cls.name n) with
      | some v => simp
      | none =>
        rw [hv, hskip] at h
        simp at h
    · by_cases hm : isFieldAllowed cfg m = true
      · rw [if_pos hm] at h
        cases hw : pyGet inst.attrs (mangleSlot inst.cls.name m) with
        | some w =>
          rw [hw] at h
          cases ht : slotsExtractFieldsAux cfg inst rest with
          | ok tail =>
            rw [ht] at h
            exact ih tail ht n hn' ha
          | error e =>
            rw [ht] at h
            cases h
        | none =>
          rw [hw, hskip] at h
          simp at h
      · rw [if_neg hm] at h
        exact ih out h n hn' ha

theorem slotsAux_skip_ok (cfg : ExtractorConfig) (inst : PyInstance)
    (hskip : cfg.skip_missing = true) :
    ∀ ns : List String, ∃ out, slotsExtractFieldsAux cfg inst ns = .ok out ∧
      out.map Prod.fst = readableAllowedSlotNamesAux cfg inst ns := by
  intro ns
  induction ns with
  | nil => exact ⟨[], rfl, rfl⟩
  | cons n rest ih =>
    rcases ih with ⟨out, hout, hnames⟩
    unfold slotsExtractFieldsAux readableAllowedSlotNamesAux
    by_cases ha : isFieldAllowed cfg n = true
    · cases hv : pyGet inst.attrs (mangleSlot inst.cls.name n) with
      | some v =>
        refine ⟨(mangleSlot inst.cls.name n,
          processFieldValue cfg inst (mangleSlot inst.cls.name n) v) :: out, ?_, ?_⟩
        · rw [if_pos ha, hout]
        · simp only [List.filterMap_cons, ha, if_pos, hv, Option.isSome_some,
            List.map_cons]
          rw [hnames]
          rfl
      | none =>
        refine ⟨out, ?_, ?_⟩
        · rw [if_pos ha, hskip]
          simpa using hout
        · simp only [List.filterMap_cons, ha, if_pos, hv, Option.isSome_none]
          rw [hnames]
          rfl
    · refine ⟨out, ?_, ?_⟩
      · rw [if_neg ha]
        exact hout
      · simp only [List.filterMap_cons, ha]
        rw [hnames]
        rfl

theorem slotsAux_error_shape (cfg : ExtractorConfig) (inst : PyInstance) :
    ∀ (ns : List String) (e : KWError),
      slotsExtractFieldsAux cfg inst ns = .error e →
      ∃ n, e = .attributeError ("Missing required attribute: " ++ n) ∧
        pyGet inst.attrs n = none := by
  intro ns
  induction ns with
  | nil =>
    intro e h
    cases h
  | cons n rest ih =>
    intro e h
    unfold slotsExtractFieldsAux at h
    by_cases ha : isFieldAllowed cfg n = true
    · rw [if_pos ha] at h
      cases hv : pyGet inst.attrs (mangleSlot inst.cls.name n) with
      | some v =>
        rw [hv] at h
        cases ht : slotsExtractFieldsAux cfg inst rest with
        | ok tail =>
          rw [ht] at h
          cases h
        | error e2 =>
          rw [ht] at h
          cases h
          exact ih _ ht
      | none =>
        rw [hv] at h
        by_cases hs : cfg.skip_missing = true
        · rw [if_pos hs] at h
          exact ih e h
        · rw [if_neg hs] at h
          cases h
          exact ⟨mangleSlot inst.cls.name n, rfl, hv⟩
    · rw [if_neg ha] at h
      exact ih e h

theorem slotsAux_error_of_missing (cfg : ExtractorConfig) (inst : PyInstance)
    (hskip : cfg.skip_missing = false) :
    ∀ (ns : List String) (n : String),
      n ∈ ns → isFieldAllowed cfg n = true →
      pyGet inst.attrs (mangleSlot inst.cls.name n) = none →
      ∃ e, slotsExtractFieldsAux cfg inst ns = .error e := by
  intro ns n hn ha hv
  cases hres : slotsExtractFieldsAux cfg inst ns with
  | ok out =>
    have := slotsAux_ok_present cfg inst hskip ns out hres n hn ha
    rw [hv] at this
    cases this
  | error e => exact ⟨e, rfl⟩

/-- C4: in the dict and slots extractor variants, a field is omitted
exactly when its declared name is in the exclusion list or starts with
an underscore while private hiding is on; the two filters are
independent conjuncts of `is_field_allowed`.  For the slots variant the
statement is taken over a successful extraction with strict
missing-attribute policy (missing-field omission is the separate
policy of C5), and the emitted name of a slot is its mangled form. -/
theorem c4_filtering :
    ∀ (cfg : ExtractorConfig) (name : String),
      (isFieldAllowed cfg name = false ↔
        (name ∈ cfg.exclude ∨
          (strStartsWith name "_" = true ∧ cfg.exclude_private = true))) ∧
      (∀ (inst : PyInstance) (v : Value), (name, v) ∈ inst.attrs →
        ((∃ s, (name, s) ∈ dictExtractFields cfg inst) ↔
          isFieldAllowed cfg name = true)) ∧
      (∀ (inst : PyInstance) (out : List (String × String)),
        cfg.skip_missing = false →
        (inst.cls.slots.map (mangleSlot inst.cls.name)).Nodup →
        name ∈ inst.cls.slots →
        slotsExtractFields cfg inst = .ok out →
        ((∃ s, (mangleSlot inst.cls.name name, s) ∈ out) ↔
          isFieldAllowed cfg name = true)) := by
  intro cfg name
  refine ⟨?_, ?_, ?_⟩
  · unfold isFieldAllowed
    by_cases h1 : (strStartsWith name "_" && cfg.exclude_private) = true
    · rw [if_pos h1]
      simp only [Bool.and_eq_true] at h1
      simp [h1]
    · rw [if_neg h1]
      by_cases h2 : cfg.exclude.contains name = true
      · rw [if_pos h2]
        have h2m : name ∈ cfg.exclude := List.elem_iff.mp h2
        simp [h2m]
      · rw [if_neg h2]
        simp only [Bool.and_eq_true, not_and] at h1
        have h2m : name ∉ cfg.exclude := fun hm => h2 (List.elem_iff.mpr hm)
        constructor
        · intro h
          cases h
        · intro h
          rcases h with h | ⟨hs, hp⟩
          · exact absurd h h2m
          · exact absurd hp (h1 hs)
  · intro inst v hv
    constructor
    · rintro ⟨s, hs⟩
      rcases List.mem_filterMap.mp hs with ⟨p, _, hp⟩
      by_cases ha : isFieldAllowed cfg p.1 = true
      · rw [if_pos ha] at hp
        cases hp
        exact ha
      · rw [if_neg ha] at hp
        cases hp
    · intro ha
      refine ⟨processFieldValue cfg inst name v, List.mem_filterMap.mpr ⟨(name, v), hv, ?_⟩⟩
      rw [if_pos ha]
  · intro inst out hskip hnodup hmem hok
    constructor
    · rintro ⟨s, hs⟩
      rcases slotsAux_names cfg inst inst.cls.slots out hok (mangleSlot inst.cls.name name, s) hs
        with ⟨m, hm, hall, hname, -⟩
      have : m = name :=
        List.inj_on_of_nodup_map hnodup hm hmem hname.symm
      rw [← this]
      exact hall
    · intro ha
      have hpresent := slotsAux_ok_present cfg inst hskip inst.cls.slots out hok name hmem ha
      rcases Option.isSome_iff_exists.mp hpresent with ⟨v, hv⟩
      exact ⟨processFieldValue cfg inst (mangleSlot inst.cls.name name) v,
        slotsAux_mem_of_present cfg inst inst.cls.slots out name v hok hmem ha hv⟩

/-- Slots instance with both slots readable (`__y` stored mangled). -/
def slotsInstS : PyInstance :=
  { cls := clsSlotsS, attrs := [("x", .int 5), ("_S__y", .int 7)] }

/-- Configuration showing private fields, over the default bundle. -/
def cfgShowPriv : ExtractorConfig := { cfgDefault with exclude_private := false }

theorem c4_filtering_witness :
    (isFieldAllowed cfgDefault "_p" = false ↔
      ("_p" ∈ cfgDefault.exclude ∨
        (strStartsWith "_p" "_" = true ∧ cfgDefault.exclude_private = true))) ∧
    ((∃ s, ("x", s) ∈ dictExtractFields cfgDefault instX1) ↔
      isFieldAllowed cfgDefault "x" = true) ∧
    ((∃ s, (mangleSlot slotsInstS.cls.name "__y", s) ∈
        [("x", "5"), ("_S__y", "7")]) ↔
      isFieldAllowed cfgShowPriv "__y" = true) :=
  ⟨(c4_filtering cfgDefault "_p").1,
   (c4_filtering cfgDefault "x").2.1 instX1 (.int 1) (List.mem_singleton.mpr rfl),
   (c4_filtering cfgShowPriv "__y").2.2 slotsInstS [("x", "5"), ("_S__y", "7")]
     rfl (by decide) (by decide) (by rfl)⟩

/-- C5: slots-variant missing-attribute policy.  With `skip_missing`
set, extraction succeeds and emits exactly the readable allowed slots
(a missing field is simply omitted); with it unset, any extraction
error is a missing-attribute error naming an unreadable field, an
unreadable allowed slot forces such an error, and the error propagates
through generation. -/
theorem c5_missing_attribute_policy :
    ∀ (cfg : ExtractorConfig) (inst : PyInstance),
      (cfg.skip_missing = true →
        ∃ out, slotsExtractFields cfg inst = .ok out ∧
          out.map Prod.fst = readableAllowedSlotNames cfg inst) ∧
      (cfg.skip_missing = false →
        ∀ e, slotsExtractFields cfg inst = .error e →
          ∃ n, e = .attributeError ("Missing required attribute: " ++ n) ∧
            pyGet inst.attrs n = none) ∧
      (cfg.skip_missing = false →
        (∃ n, n ∈ inst.cls.slots ∧ isFieldAllowed cfg n = true ∧
          pyGet inst.attrs (mangleSlot inst.cls.name n) = none) →
        ∃ e, slotsExtractFields cfg inst = .error e) ∧
      (∀ (st : KWReprState) (e : KWError), st.extractor = .slots →
        slotsExtractFields st.cfg inst = .error e →
        kwreprGenerate st inst = .error e) := by
  intro cfg inst
  refine ⟨?_, ?_, ?_, ?_⟩
  · intro hskip
    exact slotsAux_skip_ok cfg inst hskip inst.cls.slots
  · intro _ e he
    exact slotsAux_error_shape cfg inst inst.cls.slots e he
  · rintro hskip ⟨n, hn, ha, hv⟩
    exact slotsAux_error_of_missing cfg inst hskip inst.cls.slots n hn ha hv
  · intro st e hext herr
    unfold kwreprGenerate extractFieldsOf
    rw [hext, herr]

/-- Instance of the slots class missing the storage of `__y`. -/
def instSMissing : PyInstance := { cls := clsSlotsS, attrs := [("x", .int 5)] }

/-- Show-private configuration with lenient missing policy. -/
def cfgShowPrivSkip : ExtractorConfig := { cfgShowPriv with skip_missing := true }

/-- Slots state over the show-private strict configuration. -/
def stSStrict : KWReprState :=
  { delimiters := ("(", ")"), extractor := .slots, cfg := cfgShowPriv }

theorem c5_missing_attribute_policy_witness :
    (∃ out, slotsExtractFields cfgShowPrivSkip instSMissing = .ok out ∧
      out.map Prod.fst = readableAllowedSlotNames cfgShowPrivSkip instSMissing) ∧
    (∃ n, KWError.attributeError ("Missing required attribute: _S__y") =
        .attributeError ("Missing required attribute: " ++ n) ∧
      pyGet instSMissing.attrs n = none) ∧
    (∃ e, slotsExtractFields cfgShowPriv instSMissing = .error e) ∧
    kwreprGenerate stSStrict instSMissing =
      .error (.attributeError "Missing required attribute: _S__y") :=
  ⟨(c5_missing_attribute_policy cfgShowPrivSkip instSMissing).1 rfl,
   (c5_missing_attribute_policy cfgShowPriv instSMissing).2.1 rfl
     (.attributeError "Missing required attribute: _S__y") (by rfl),
   (c5_missing_attribute_policy cfgShowPriv instSMissing).2.2.1 rfl
     ⟨"__y", by decide, by rfl, by rfl⟩,
   (c5_missing_attribute_policy cfgShowPriv instSMissing).2.2.2 stSStrict
     (.attributeError "Missing required attribute: _S__y") rfl (by rfl)⟩

theorem repr1_long_list (rc : ReprConfig) (l : List Value) (level : Nat)
    (hlvl : level ≠ 0) (hlen : l.length > rc.maxlist) :
    repr1 rc (.list l) level =
      "[" ++ String.intercalate ", "
        ((l.take rc.maxlist).map (fun v => repr1 rc v (level - 1)) ++ ["..."]) ++ "]" := by
  have h0 : (decide (level = 0) && !l.isEmpty) = false := by
    simp [hlvl]
  simp only [repr1, h0, Bool.false_eq_true, if_false, repr1Values_eq]
  rw [if_pos (by simpa using hlen)]

/-- C6 (amended): a registered computing function replaces the stored
value (even when one exists); then a registered *non-empty* format
specifier renders the value via `format`, while no registered specifier
— or a registered empty one, which the truthiness test in the source treats
like an absent one — renders it via the bounded `reprlib` renderer,
which truncates lists longer than the configured `maxlist`. -/
theorem c6_field_processing :
    ∀ (cfg : ExtractorConfig) (inst : PyInstance) (name : String) (v : Value),
      (∀ f, pyGet cfg.compute name = some f →
        processFieldValue cfg inst name v =
          processFieldValue { cfg with compute := [] } inst name (f inst)) ∧
      (pyGet cfg.compute name = none →
        ∀ s, pyGet cfg.format_spec name = some s → s ≠ "" →
          processFieldValue cfg inst name v = pyFormat v s) ∧
      (pyGet cfg.compute name = none → pyGet cfg.format_spec name = none →
        processFieldValue cfg inst name v = reprlibRepr cfg.reprCfg v) ∧
      (pyGet cfg.compute name = none → pyGet cfg.format_spec name = some "" →
        processFieldValue cfg inst name v = reprlibRepr cfg.reprCfg v) ∧
      (∀ l : List Value, cfg.reprCfg.maxlevel ≠ 0 →
        l.length > cfg.reprCfg.maxlist →
        reprlibRepr cfg.reprCfg (.list l) =
          "[" ++ String.intercalate ", "
            ((l.take cfg.reprCfg.maxlist).map
              (fun w => repr1 cfg.reprCfg w (cfg.reprCfg.maxlevel - 1)) ++ ["..."]) ++ "]") := by
  intro cfg inst name v
  refine ⟨?_, ?_, ?_, ?_, ?_⟩
  · intro f hf
    unfold processFieldValue
    rw [hf]
    rfl
  · intro hc s hs hne
    unfold processFieldValue
    rw [hc, hs]
    simp [hne]
  · intro hc hf
    unfold processFieldValue
    rw [hc, hf]
  · intro hc hf
    unfold processFieldValue
    rw [hc, hf]
    simp
  · intro l hlvl hlen
    exact repr1_long_list cfg.reprCfg l cfg.reprCfg.maxlevel hlvl hlen

/-- A ten-element list, longer than the default `maxlist` of 6. -/
def vLong : Value := .list ((List.range 10).map (fun k => .int (k : Int)))

/-- Default configuration with the empty format specifier registered
for the field `x`. -/
def cfgEmptySpec : ExtractorConfig := { cfgDefault with format_spec := [("x", "")] }

/-- C6 counterexample: a format specifier (the empty one) is registered
for `x`, yet the value is not rendered with that specifier — `format`
with an empty spec would print the full ten-element list, while the
truthiness test in the source routes the field to the truncating `reprlib`
renderer. -/
theorem c6_counterexample :
    pyGet cfgEmptySpec.format_spec "x" = some "" ∧
    processFieldValue cfgEmptySpec instX1 "x" vLong ≠ pyFormat vLong "" := by
  constructor
  · rfl
  · decide

theorem c6_field_processing_witness :
    processFieldValue { cfgDefault with compute := [("x", fun _ => .int 99)] }
        instX1 "x" (.int 1) =
      processFieldValue { { cfgDefault with compute := [("x", fun _ => .int 99)] }
        with compute := [] } instX1 "x" (.int 99) ∧
    processFieldValue { cfgDefault with format_spec := [("x", "d")] }
        instX1 "x" (.int 1) = pyFormat (.int 1) "d" ∧
    processFieldValue cfgDefault instX1 "x" (.int 1) =
      reprlibRepr cfgDefault.reprCfg (.int 1) ∧
    processFieldValue cfgEmptySpec instX1 "x" (.int 1) =
      reprlibRepr cfgEmptySpec.reprCfg (.int 1) ∧
    reprlibRepr cfgDefault.reprCfg (.list ((List.range 10).map (fun k => .int (k : Int)))) =
      "[" ++ String.intercalate ", "
        ((((List.range 10).map (fun k => Value.int (k : Int))).take cfgDefault.reprCfg.maxlist).map
          (fun w => repr1 cfgDefault.reprCfg w (cfgDefault.reprCfg.maxlevel - 1)) ++ ["..."]) ++ "]" :=
  ⟨(c6_field_processing { cfgDefault with compute := [("x", fun _ => .int 99)] }
      instX1 "x" (.int 1)).1 (fun _ => .int 99) (by rfl),
   (c6_field_processing { cfgDefault with format_spec := [("x", "d")] }
      instX1 "x" (.int 1)).2.1 (by rfl) "d" (by rfl) (by decide),
   (c6_field_processing cfgDefault instX1 "x" (.int 1)).2.2.1 (by rfl) (by rfl),
   (c6_field_processing cfgEmptySpec instX1 "x" (.int 1)).2.2.2.1 (by rfl) (by rfl),
   (c6_field_processing cfgDefault instX1 "x" (.int 1)).2.2.2.2
     ((List.range 10).map (fun k => .int (k : Int))) (by decide) (by decide)⟩

/-- Dict-backed instance carrying only an underscore-named attribute. -/
def instPrivP : PyInstance := { cls := clsDictT, attrs := [("_p", .int 1)] }

/-- The state `KWRepr.inject_repr` builds for `clsDictT` when no option
is supplied: its own `exclude_private` default is `False`. -/
def stTInject : KWReprState :=
  { delimiters := ("(", ")"), extractor := .dict,
    cfg := { cfgDefault with exclude_private := false } }

/-- C7 counterexample: attaching through `KWRepr.inject_repr` with no
options leaves `exclude_private` off (the parameter default there is
`False`, unlike the `True` of the decorator), so an underscore-named field
is shown, not hidden. -/
theorem c7_counterexample :
    injectRepr noOptions clsDictT = .ok stTInject ∧
    attachAndGenerate (injectRepr noOptions clsDictT) instPrivP = .ok "T(_p=1)" := by
  exact ⟨by rfl, by rfl⟩

/-- C7 (amended): when the `exclude_private` option is not supplied,
the decorator entry point `apply_kwrepr` defaults it to true — hiding
every underscore-named field — but the `KWRepr.inject_repr` entry point
defaults it to false. -/
theorem c7_exclude_private_defaults :
    ∀ (opts : KWOptions) (cls : PyClass),
      opts.exclude_private = none →
      (∀ st, applyKwrepr opts cls = .ok st →
        st.cfg.exclude_private = true ∧
        ∀ n, strStartsWith n "_" = true → isFieldAllowed st.cfg n = false) ∧
      (∀ st, injectRepr opts cls = .ok st → st.cfg.exclude_private = false) := by
  intro opts cls hnone
  constructor
  · intro st h
    unfold applyKwrepr kwreprInit at h
    split at h
    · cases h
    · split at h
      · cases h
      · cases h
        refine ⟨by simp [hnone], ?_⟩
        intro n hs
        unfold isFieldAllowed
        rw [hs]
        simp [hnone]
  · intro st h
    unfold injectRepr kwreprInit at h
    split at h
    · cases h
    · split at h
      · cases h
      · cases h
        simp [hnone]

theorem c7_exclude_private_defaults_witness :
    (stT.cfg.exclude_private = true ∧ isFieldAllowed stT.cfg "_p" = false) ∧
    stTInject.cfg.exclude_private = false :=
  ⟨⟨((c7_exclude_private_defaults noOptions clsDictT rfl).1 stT (by rfl)).1,
    ((c7_exclude_private_defaults noOptions clsDictT rfl).1 stT (by rfl)).2 "_p" (by rfl)⟩,
   (c7_exclude_private_defaults noOptions clsDictT rfl).2 stTInject (by rfl)⟩

/-- Two successive calls of the installed representation generator on
the same instance. -/
def generateTwice (st : KWReprState) (inst : PyInstance) :
    Except KWError String × Except KWError String :=
  (kwreprGenerate st inst, kwreprGenerate st inst)

/-- C8: generation is a pure function of the attached state and the
instance — the embedding carries no mutable state, and computing
functions are modelled as (pure) functions — so calling the installed
generator twice on an unmodified instance yields identical results. -/
theorem c8_repeat_generation :
    ∀ (st : KWReprState) (inst : PyInstance),
      (generateTwice st inst).1 = (generateTwice st inst).2 :=
  fun _ _ => rfl

/-- C9: for a slot written with two leading and not two trailing
underscores, the mangled storage name `_<TypeName><name>` is not only
what is read from the instance but also the emitted field name and the
key under which `compute` and `format_spec` are consulted — so entries
registered under the original unmangled name are ignored for that
field. -/
theorem c9_mangled_key :
    ∀ (cfg : ExtractorConfig) (inst : PyInstance) (n : String) (v : Value),
      strStartsWith n "__" = true → strEndsWith n "__" = false →
      inst.cls.slots = [n] →
      isFieldAllowed cfg n = true →
      pyGet inst.attrs ("_" ++ inst.cls.name ++ n) = some v →
      slotsExtractFields cfg inst =
        .ok [("_" ++ inst.cls.name ++ n,
          processFieldValue cfg inst ("_" ++ inst.cls.name ++ n) v)] ∧
      (pyGet cfg.compute ("_" ++ inst.cls.name ++ n) = none →
        pyGet cfg.format_spec ("_" ++ inst.cls.name ++ n) = none →
        slotsExtractFields cfg inst =
          .ok [("_" ++ inst.cls.name ++ n, reprlibRepr cfg.reprCfg v)]) := by
  intro cfg inst n v hs he hslots ha hv
  have hm : mangleSlot inst.cls.name n = "_" ++ inst.cls.name ++ n := by
    unfold mangleSlot
    rw [hs, he]
    rfl
  have hmain : slotsExtractFields cfg inst =
      .ok [("_" ++ inst.cls.name ++ n,
        processFieldValue cfg inst ("_" ++ inst.cls.name ++ n) v)] := by
    unfold slotsExtractFields
    rw [hslots]
    unfold slotsExtractFieldsAux
    rw [if_pos ha, hm, hv]
    rfl
  refine ⟨hmain, fun hc hf => ?_⟩
  rw [hmain]
  have hp : processFieldValue cfg inst ("_" ++ inst.cls.name ++ n) v =
      reprlibRepr cfg.reprCfg v := by
    unfold processFieldValue
    rw [hc, hf]
  rw [hp]

/-- Slots class whose single slot is the private name `__y`. -/
def clsSlotsY : PyClass :=
  { name := "S", qualname := "S", hasDict := false, hasSlots := true,
    slots := ["__y"] }

/-- Instance of it, with the value stored under the mangled name. -/
def instSY : PyInstance := { cls := clsSlotsY, attrs := [("_S__y", .int 7)] }

/-- Show-private configuration whose `compute` and `format_spec` are
keyed by the *unmangled* slot name. -/
def cfgC9 : ExtractorConfig :=
  { cfgDefault with
    exclude_private := false
    compute := [("__y", fun _ => .int 99)]
    format_spec := [("__y", "d")] }

theorem c9_mangled_key_witness :
    slotsExtractFields cfgC9 instSY =
      .ok [("_" ++ instSY.cls.name ++ "__y", reprlibRepr cfgC9.reprCfg (.int 7))] :=
  (c9_mangled_key cfgC9 instSY "__y" (.int 7) (by rfl) (by rfl) rfl (by rfl)
    (by rfl)).2 (by rfl) (by rfl)

/-- C10: the dict extractor draws fields only from the own attribute
mapping of the instance: its result does not depend on `skip_missing`, every
emitted field name is a stored attribute (so a computing function
registered under an unstored name contributes no field), and for a
state carrying the dict variant, extraction always succeeds — it never
raises a missing-attribute error. -/
theorem c10_dict_total :
    ∀ (cfg : ExtractorConfig) (inst : PyInstance) (b : Bool),
      dictExtractFields { cfg with skip_missing := b } inst =
        dictExtractFields cfg inst ∧
      (∀ p ∈ dictExtractFields cfg inst, (pyGet inst.attrs p.1).isSome) ∧
      (∀ st : KWReprState, st.extractor = ExtractorKind.dict →
        extractFieldsOf st inst = .ok (dictExtractFields st.cfg inst)) := by
  intro cfg inst b
  refine ⟨rfl, ?_, ?_⟩
  · intro p hp
    rcases List.mem_filterMap.mp hp with ⟨q, hq, hif⟩
    by_cases ha : isFieldAllowed cfg q.1 = true
    · rw [if_pos ha] at hif
      cases hif
      exact pyGet_isSome_of_mem hq
    · rw [if_neg ha] at hif
      cases hif
  · intro st hdict
    unfold extractFieldsOf
    rw [hdict]

theorem c10_dict_total_witness :
    dictExtractFields { cfgDefault with skip_missing := true } instX1 =
      dictExtractFields cfgDefault instX1 ∧
    (pyGet instX1.attrs ("x", "1").1).isSome ∧
    extractFieldsOf stT instX1 = .ok (dictExtractFields stT.cfg instX1) :=
  ⟨(c10_dict_total cfgDefault instX1 true).1,
   (c10_dict_total cfgDefault instX1 true).2.1 ("x", "1")
     (by rw [show dictExtractFields cfgDefault instX1 = [("x", "1")] from by rfl]
         exact List.mem_singleton.mpr rfl),
   (c10_dict_total stT.cfg instX1 true).2.2 stT rfl⟩
